import Mathlib

/-!
Verification development for the Aruna metadata server's storage engine
(repository `aos_server`).  The Rust sources under `src/aruna-server/src/`
(`storage/store.rs`, `transactions/group.rs`, `models.rs`, `constants.rs`)
and `src/src/auth/issuer_handler.rs` are shallowly embedded: pure data is
translated to Lean structures and inductives, the LMDB write transaction is
modelled as explicit state passing where the pending database state is only
published on commit, and the `petgraph` in-memory graph is modelled as a
vertex list plus an edge list that is mutated eagerly, exactly as
`Store::create_relation` / `Store::create_node` do behind the `RwLock`.
-/

namespace Aruna

/-- External 128-bit lexicographically sortable identifier (`ulid::Ulid`),
modelled as a natural number below `2^128`. -/
abbrev Ulid := Nat

/-- `models.rs` lines 29-38: the eight node variants, `#[repr(u8)]` with
discriminants 0..7. -/
inductive NodeVariant
  | resourceProject
  | resourceFolder
  | resourceObject
  | user
  | token
  | serviceAccount
  | group
  | realm
deriving DecidableEq, Repr

/-- The `u8` discriminant of a `NodeVariant` (`models.rs` `#[repr(u8)]`). -/
def NodeVariant.toU8 : NodeVariant → Nat
  | .resourceProject => 0
  | .resourceFolder => 1
  | .resourceObject => 2
  | .user => 3
  | .token => 4
  | .serviceAccount => 5
  | .group => 6
  | .realm => 7

/-- `constants.rs` module `relation_types`: edge type ids. -/
def HAS_PART : Nat := 0
def OWNS_PROJECT : Nat := 1
def PERMISSION_NONE : Nat := 2
def PERMISSION_READ : Nat := 3
def PERMISSION_APPEND : Nat := 4
def PERMISSION_WRITE : Nat := 5
def PERMISSION_ADMIN : Nat := 6
def SHARES_PERMISSION : Nat := 7
def OWNED_BY_USER : Nat := 8
def GROUP_PART_OF_REALM : Nat := 9
def GROUP_ADMINISTRATES_REALM : Nat := 10
def REALM_USES_ENDPOINT : Nat := 11

/-- Error taxonomy of `error.rs` as used by the embedded functions; the
`panicked` outcome stands for the Rust `assert_eq!` panic in
`Store::create_node`, which aborts the task before any commit. -/
inductive ArunaError
  | unauthorized
  | forbidden
  | notFound
  | databaseError
  | conversionError
  | serverError
  | panicked
deriving DecidableEq, Repr

/-- `models.rs` lines 544-552: permission levels with `#[repr(u32)]`
discriminants 2..6. -/
inductive Permission
  | none
  | read
  | append
  | write
  | admin
deriving DecidableEq, Repr

/-- The `u32` representation of a `Permission` (its `#[repr(u32)]`
discriminant, used as the permission edge type id). -/
def Permission.toU32 : Permission → Nat
  | .none => PERMISSION_NONE
  | .read => PERMISSION_READ
  | .append => PERMISSION_APPEND
  | .write => PERMISSION_WRITE
  | .admin => PERMISSION_ADMIN

/-- `models.rs` lines 554-571: `TryFrom<u32> for Permission`, matching on the
`relation_types` constants and failing with `ConversionError` otherwise. -/
def Permission.tryFrom (value : Nat) : Except ArunaError Permission :=
  if value = PERMISSION_NONE then .ok .none
  else if value = PERMISSION_READ then .ok .read
  else if value = PERMISSION_APPEND then .ok .append
  else if value = PERMISSION_WRITE then .ok .write
  else if value = PERMISSION_ADMIN then .ok .admin
  else .error .conversionError

/-- `models.rs` lines 450-455: the raw relation stored in the `relations`
sub-database. -/
structure RawRelation where
  source : Nat
  target : Nat
  edge_type : Nat
deriving DecidableEq, Repr

/-- The in-memory `petgraph::graph::Graph<NodeVariant, EdgeType>` behind the
`RwLock` in `Store` (`store.rs` line 84).  Vertices are addressed by their
position in `nodes`; `edges` records `(source, target, edge_type)` triples in
insertion order. -/
structure Graph where
  nodes : List NodeVariant
  edges : List (Nat × Nat × Nat)
deriving DecidableEq, Repr

/-- `petgraph` `add_node`: appends a vertex and returns the fresh index
(the previous vertex count). -/
def Graph.addNode (g : Graph) (v : NodeVariant) : Graph × Nat :=
  ({ g with nodes := g.nodes ++ [v] }, g.nodes.length)

/-- `petgraph` `add_edge`: unconditionally appends a new edge (the graph is a
multigraph; parallel edges are kept). -/
def Graph.addEdge (g : Graph) (source target edgeType : Nat) : Graph :=
  { g with edges := g.edges ++ [(source, target, edgeType)] }

/-- `petgraph` `node_weight`: the variant stored at a vertex index. -/
def Graph.nodeWeight (g : Graph) (i : Nat) : Option NodeVariant :=
  g.nodes.get? i

/-- `petgraph` `neighbors`: targets of the outgoing edges of `i`, in reverse
order of edge insertion (as documented by petgraph). -/
def Graph.neighbors (g : Graph) (i : Nat) : List Nat :=
  ((g.edges.filter (fun e => e.1 == i)).map (fun e => e.2.1)).reverse

/-- LMDB `put` on a database opened without `DUP_SORT` (such as `relations`,
`read_group_perms`): at most one value per key, an existing value for the key
is overwritten. -/
def kvPut {α : Type} (db : List (Nat × α)) (k : Nat) (v : α) : List (Nat × α) :=
  if db.any (fun p => p.1 == k) then
    db.map (fun p => if p.1 == k then (k, v) else p)
  else
    db ++ [(k, v)]

/-- LMDB `get`: the value stored under a key, if any. -/
def kvGet {α : Type} (db : List (Nat × α)) (k : Nat) : Option α :=
  (db.find? (fun p => p.1 == k)).map (·.2)

/-- The persistent (LMDB-backed) state touched by the embedded write paths:
the milli document store (`docs`, in internal-idx order, holding the external
ulid and the node variant of each document), the `relations` sub-database
(plain, keyed by source idx), the `events` sub-database (`DUP_SORT`: a list of
`(idx, event_id)` pairs in insertion order) and `read_group_perms`. -/
structure DbState where
  docs : List (Ulid × NodeVariant)
  relations : List (Nat × RawRelation)
  events : List (Nat × Nat)
  readPerms : List (Nat × List Nat)
deriving DecidableEq, Repr

/-- The store: committed database state plus the shared in-memory graph
(`store.rs` lines 59-85). -/
structure Store where
  db : DbState
  graph : Graph
deriving DecidableEq, Repr

/-- `store.rs` lines 164-172, `Store::get_idx_from_ulid`: look the external id
up in milli's `external_documents_ids` map; the internal idx of a document is
its position in the document store. -/
def getIdxFromUlid (db : DbState) (id : Ulid) : Option Nat :=
  db.docs.findIdx? (fun p => p.1 == id)

/-- `store.rs` lines 174-187, `Store::get_ulid_from_idx`: primary key (field 0)
of the document stored at an internal idx. -/
def getUlidFromIdx (db : DbState) (i : Nat) : Option Ulid :=
  (db.docs.get? i).map (·.1)

/-- `store.rs` lines 189-214, `Store::create_relation`: build the
`RawRelation`, `put` it into the `relations` sub-database under the source
key (overwriting any previous tuple for that key, since the database has no
`DUP_SORT` flag), then immediately add the edge to the in-memory graph. -/
def createRelation (db : DbState) (g : Graph) (source target edgeType : Nat) :
    DbState × Graph :=
  ({ db with
      relations := kvPut db.relations source ⟨source, target, edgeType⟩ },
   g.addEdge source target edgeType)

/-- The milli document-indexing step of `Store::create_node`
(`builder.execute()`): a new external id is assigned the next unused internal
idx (it is appended to the document store); an existing id keeps its idx. -/
def indexDocument (db : DbState) (id : Ulid) (variant : NodeVariant) : DbState :=
  if db.docs.any (fun p => p.1 == id) then db
  else { db with docs := db.docs ++ [(id, variant)] }

/-- `store.rs` lines 216-277, `Store::create_node` without the trailing event
registration: index the document, look the assigned idx up via the external
ulid, `add_node` on the graph (this mutates the shared graph immediately) and
assert that the two indices agree — a mismatch panics (`assert_eq!`) instead
of committing.  Returns the possibly-mutated graph together with the result. -/
def indexAndAddNode (db : DbState) (g : Graph) (id : Ulid)
    (variant : NodeVariant) : Graph × Except ArunaError (DbState × Nat) :=
  let db' := indexDocument db id variant
  match getIdxFromUlid db' id with
  | none => (g, .error .databaseError)
  | some idx =>
    let (g', index) := g.addNode variant
    if index = idx then (g', .ok (db', idx))
    else (g', .error .panicked)

/-- `store.rs` lines 216-277, `Store::create_node`: `indexAndAddNode` followed
by `events.put(wtxn, &idx, &event_id)` associating the supplied event id with
the new node. -/
def createNode (db : DbState) (g : Graph) (eventId : Nat) (id : Ulid)
    (variant : NodeVariant) : Graph × Except ArunaError (DbState × Nat) :=
  match indexAndAddNode db g id variant with
  | (g', .error e) => (g', .error e)
  | (g', .ok (db', idx)) =>
    (g', .ok ({ db' with events := db'.events ++ [(idx, eventId)] }, idx))

/-- A write transaction attempt: the body runs against the committed database
state and the shared graph; database changes are staged in the transaction
and only become the committed state when the final commit succeeds, while
graph mutations apply to the shared graph immediately.  If the body fails or
the commit fails (`commitOk = false`), the heed transaction is dropped and
the committed database state is unchanged — but the graph keeps whatever the
body did to it.  This mirrors `Store`'s use of one `RwTxn` plus the
`RwLock`ed graph in `store.rs`. -/
def attemptWrite {α : Type} (s : Store)
    (body : DbState → Graph → Graph × Except ArunaError (DbState × α))
    (commitOk : Bool) : Store × Except ArunaError α :=
  match body s.db s.graph with
  | (g', .error e) => ({ db := s.db, graph := g' }, .error e)
  | (g', .ok (db', a)) =>
    if commitOk then ({ db := db', graph := g' }, .ok a)
    else ({ db := s.db, graph := g' }, .error .databaseError)

/-- `requests/request.rs` `AuthMethod` as used by
`Store::get_requester_from_token_id`: an Aruna server token id or an OIDC
subject. -/
inductive AuthMethod
  | aruna (tokenId : Ulid)
  | oidc (subject : String)
deriving DecidableEq, Repr

/-- `requests/request.rs` `Requester` as produced by
`Store::get_requester_from_token_id`. -/
inductive Requester
  | user (userId : Ulid) (authMethod : AuthMethod)
  | serviceAccount (serviceAccountId : Ulid) (tokenId : Ulid) (groupId : Ulid)
deriving DecidableEq, Repr

/-- Modelled from the spec: `graph.rs`'s `check_node_variant` is not under
`src/`; per §4.7 "the node at `sub` must have variant `Token`", it compares
the graph vertex's weight with the expected variant. -/
def checkNodeVariant (g : Graph) (i : Nat) (v : NodeVariant) : Bool :=
  g.nodeWeight i == some v

/-- The neighbor loop of `Store::get_requester_from_token_id` (`store.rs`
lines 341-396): walk the token's outgoing neighbors (any edge type) in graph
order; a `User` neighbor whose ulid resolves yields `Requester::User` (if the
lookup fails the loop silently continues); a `ServiceAccount` neighbor yields
`Requester::ServiceAccount` with the service account's first outgoing `Group`
neighbor (`Unauthorized` if it has none or its ulid does not resolve); any
other variant yields `Unauthorized` immediately; so does an exhausted list. -/
def resolveTokenNeighbors (db : DbState) (g : Graph) (tokenId : Ulid) :
    List Nat → Except ArunaError Requester
  | [] => .error .unauthorized
  | n :: rest =>
    match g.nodeWeight n with
    | none => .error .unauthorized
    | some .user =>
      match getUlidFromIdx db n with
      | some userId => .ok (.user userId (.aruna tokenId))
      | none => resolveTokenNeighbors db g tokenId rest
    | some .serviceAccount =>
      match getUlidFromIdx db n with
      | none => .error .unauthorized
      | some serviceAccountId =>
        match (g.neighbors n).find? (fun m => g.nodeWeight m == some .group) with
        | none => .error .unauthorized
        | some grp =>
          match getUlidFromIdx db grp with
          | none => .error .unauthorized
          | some groupId => .ok (.serviceAccount serviceAccountId tokenId groupId)
    | some _ => .error .unauthorized

/-- `store.rs` lines 322-399, `Store::get_requester_from_token_id`: resolve
the token ulid to an internal idx (`Unauthorized` on miss), check the node
variant is `Token`, then run the neighbor loop. -/
def getRequesterFromTokenId (db : DbState) (g : Graph) (tokenId : Ulid) :
    Except ArunaError Requester :=
  match getIdxFromUlid db tokenId with
  | none => .error .unauthorized
  | some internalIdx =>
    if checkNodeVariant g internalIdx .token then
      resolveTokenNeighbors db g tokenId (g.neighbors internalIdx)
    else .error .unauthorized

/-! Issuer registry (`src/src/auth/issuer_handler.rs`).  The JWKS decoding
keys are abstracted to key material tags (`Nat`); timestamps are seconds. -/

/-- `issuer_handler.rs` lines 9-14. -/
inductive IssuerType
  | aruna
  | dataproxy
  | oidc
deriving DecidableEq, Repr

/-- `issuer_handler.rs` lines 16-23: one issuer with its cached decoding keys
and the time of the last JWKS refresh. -/
structure Issuer where
  issuerName : String
  pubkeyEndpoint : Option String
  decodingKeys : List (String × Nat)
  lastUpdated : Int
  audiences : List String
  issuerType : IssuerType
deriving DecidableEq, Repr

/-- The distinct `bail!`/failure sites of `Issuer::refresh_jwks`. -/
inductive RefreshError
  | refreshTooSoon
  | notOidc
  | invalidEndpoint
  | fetchFailed
deriving DecidableEq, Repr

/-- `chrono::Duration::minutes(5)` in seconds. -/
def fiveMinutes : Int := 300

/-- `issuer_handler.rs` lines 75-93, `Issuer::refresh_jwks`.  The network
fetch is a parameter: `none` models a failed `fetch_jwks`, `some (keys, t)` a
successful one returning the new key list and its retrieval time.  The first
component of the result is the issuer state after the call (`&mut self`): on
any error the issuer is returned unchanged. -/
def refreshJwks (iss : Issuer) (now : Int)
    (fetched : Option (List (String × Nat) × Int)) :
    Issuer × Except RefreshError Unit :=
  if iss.lastUpdated + fiveMinutes > now then (iss, .error .refreshTooSoon)
  else if iss.issuerType ≠ .oidc then (iss, .error .notOidc)
  else
    match iss.pubkeyEndpoint with
    | none => (iss, .error .invalidEndpoint)
    | some _ =>
      match fetched with
      | none => (iss, .error .fetchFailed)
      | some (keys, t) =>
        ({ iss with decodingKeys := keys, lastUpdated := t }, .ok ())

/-! Write-request layer (`src/aruna-server/src/transactions/group.rs`). -/

/-- Modelled from the spec: §4.5 `append(event_id, affected, subscribed)` —
the `WriteTxn::commit(event_id, affected, subscribed)` wrapper called by the
transactions in `group.rs` is not under `src/`; for every affected idx it
inserts an `(idx, event_id)` record into the `DUP_SORT` events database. -/
def registerEvents (db : DbState) (eventId : Nat) (affected : List Nat) :
    DbState :=
  { db with events := db.events ++ affected.map (fun i => (i, eventId)) }

/-- Modelled from the spec: §4.9 step 5 — `Store::add_read_permission_universe`
(called by `CreateGroupRequestTx::execute`, body not under `src/`) merges the
given resource indices into the group's entry of `read_group_perms`. -/
def addReadPermissionUniverse (db : DbState) (grp : Nat) (uni : List Nat) :
    DbState :=
  { db with
      readPerms :=
        kvPut db.readPerms grp ((kvGet db.readPerms grp).getD [] ++ uni) }

/-- `models.rs` lines 364-370 (`Group`). -/
structure Group where
  id : Ulid
  name : String
  description : String
deriving DecidableEq, Repr

/-- `models.rs` lines 613-616 (`CreateGroupResponse`). -/
structure CreateGroupResponse where
  group : Group
deriving DecidableEq, Repr

/-- `group.rs` lines 71-122, `CreateGroupRequestTx::execute` (the part after
authorization, run under one write transaction): look up the requester's
idx, create the group node, add the `user --PermissionAdmin--> group`
relation, install the group's read-permission universe `[group_idx]` and
register the event for the affected nodes `[user_idx, group_idx]`. -/
def createGroupTxBody (requesterId : Ulid) (group : Group) (eventId : Nat)
    (db : DbState) (g : Graph) :
    Graph × Except ArunaError (DbState × CreateGroupResponse) :=
  match getIdxFromUlid db requesterId with
  | none => (g, .error .notFound)
  | some userIdx =>
    match indexAndAddNode db g group.id .group with
    | (g', .error e) => (g', .error e)
    | (g', .ok (db1, groupIdx)) =>
      let (db2, g2) := createRelation db1 g' userIdx groupIdx PERMISSION_ADMIN
      let db3 := addReadPermissionUniverse db2 groupIdx [groupIdx]
      let db4 := registerEvents db3 eventId [userIdx, groupIdx]
      (g2, .ok (db4, ⟨group⟩))

/-- `CreateGroupRequestTx::execute` as a whole write attempt: the body runs
in the single write transaction and the commit publishes the staged database
state (or fails, leaving the committed state untouched). -/
def createGroupExecute (s : Store) (requesterId : Ulid) (group : Group)
    (eventId : Nat) (commitOk : Bool) :
    Store × Except ArunaError CreateGroupResponse :=
  attemptWrite s (createGroupTxBody requesterId group eventId) commitOk

/-- Modelled from the spec together with the call sites in `group.rs`: the
request-layer requester whose `get_id` yields the registered user id (if any)
and whose `get_impersonator` yields the impersonating identity checked at the
top of every `run_request` in `group.rs` (the definition of
`get_impersonator` itself is not under `src/`). -/
structure RequesterCtx where
  id : Option Ulid
  impersonator : Option Ulid
deriving DecidableEq, Repr

/-- The ulid crate's `Ulid::new().0`: a fresh 128-bit value whose high 48
bits are the millisecond timestamp and whose low 80 bits are random. -/
def ulidNew (timestampMs rand : Nat) : Nat :=
  timestampMs % 2 ^ 48 * 2 ^ 80 + rand % 2 ^ 80

/-- `group.rs` lines 35-59, `CreateGroupRequest::run_request`: reject
impersonating requesters with `Unauthorized` before anything else, reject a
missing requester, then dispatch the write transaction
(`controller.transaction(Ulid::new().0, ..)` — the event id is a fresh ulid).
A requester without an id is rejected as unregistered (`Forbidden`) inside
the transaction. -/
def createGroupRun (s : Store) (requester : Option RequesterCtx)
    (txId : Ulid) (name description : String) (eventId : Nat)
    (commitOk : Bool) : Store × Except ArunaError CreateGroupResponse :=
  if (requester.bind (·.impersonator)).isSome then (s, .error .unauthorized)
  else
    match requester with
    | none => (s, .error .unauthorized)
    | some r =>
      match r.id with
      | none => (s, .error .forbidden)
      | some requesterId =>
        createGroupExecute s requesterId ⟨txId, name, description⟩ eventId
          commitOk

/-- `group.rs` lines 134-170, `GetGroupRequest::run_request`: reject
impersonating requesters, then read the group document on a read snapshot
(no state change). -/
def getGroupRun (s : Store) (requester : Option RequesterCtx) (groupId : Ulid) :
    Store × Except ArunaError (Ulid × NodeVariant) :=
  if (requester.bind (·.impersonator)).isSome then (s, .error .unauthorized)
  else
    match getIdxFromUlid s.db groupId with
    | none => (s, .error .notFound)
    | some idx =>
      match s.db.docs.get? idx with
      | none => (s, .error .notFound)
      | some doc => (s, .ok doc)

/-- `group.rs` lines 181-263, `AddUserRequest::run_request` plus
`AddUserRequestTx::execute`: reject impersonating requesters, resolve both
ids, add the `user --permission--> group` relation and commit with the
affected nodes. -/
def addUserRun (s : Store) (requester : Option RequesterCtx)
    (userId groupId : Ulid) (permission : Permission) (eventId : Nat)
    (commitOk : Bool) : Store × Except ArunaError Unit :=
  if (requester.bind (·.impersonator)).isSome then (s, .error .unauthorized)
  else
    match requester with
    | none => (s, .error .unauthorized)
    | some _ =>
      attemptWrite s (fun db g =>
        match getIdxFromUlid db userId with
        | none => (g, .error .notFound)
        | some userIdx =>
          match getIdxFromUlid db groupId with
          | none => (g, .error .notFound)
          | some groupIdx =>
            let (db', g') :=
              createRelation db g userIdx groupIdx permission.toU32
            (g', .ok (registerEvents db' eventId [userIdx, groupIdx], ())))
        commitOk

/-- `group.rs` lines 265-324, `GetUsersFromGroupRequest::run_request`: reject
impersonating requesters, then collect the documents of all sources of
incoming permission edges (`PERMISSION_NONE..=PERMISSION_ADMIN`) of the
group (a read; no state change). -/
def getUsersFromGroupRun (s : Store) (requester : Option RequesterCtx)
    (groupId : Ulid) : Store × Except ArunaError (List (Ulid × NodeVariant)) :=
  if (requester.bind (·.impersonator)).isSome then (s, .error .unauthorized)
  else
    match getIdxFromUlid s.db groupId with
    | none => (s, .error .notFound)
    | some idx =>
      let sources :=
        (s.graph.edges.filter (fun e =>
          e.2.1 == idx && PERMISSION_NONE ≤ e.2.2 && e.2.2 ≤ PERMISSION_ADMIN)).map
          (·.1)
      (s, .ok (sources.filterMap (fun i => s.db.docs.get? i)))

/-- `group.rs` lines 326-413, `UserAccessGroupRequest::run_request` plus
`UserAccessGroupTx::execute`: reject impersonating requesters, reject a
missing or unregistered requester, then commit an event whose affected nodes
are the group and the sources of its incoming
`PERMISSION_READ..=PERMISSION_ADMIN` edges. -/
def userAccessGroupRun (s : Store) (requester : Option RequesterCtx)
    (groupId : Ulid) (eventId : Nat) (commitOk : Bool) :
    Store × Except ArunaError Unit :=
  if (requester.bind (·.impersonator)).isSome then (s, .error .unauthorized)
  else
    match requester with
    | none => (s, .error .unauthorized)
    | some r =>
      match r.id with
      | none => (s, .error .forbidden)
      | some requesterId =>
        attemptWrite s (fun db g =>
          match getIdxFromUlid db groupId with
          | none => (g, .error .notFound)
          | some groupIdx =>
            match getIdxFromUlid db requesterId with
            | none => (g, .error .notFound)
            | some _ =>
              let affected := groupIdx ::
                ((g.edges.filter (fun e =>
                  e.2.1 == groupIdx && PERMISSION_READ ≤ e.2.2 &&
                    e.2.2 ≤ PERMISSION_ADMIN)).map (·.1))
              (g, .ok (registerEvents db eventId affected, ())))
          commitOk

/-! Field codec (C1 of the spec).  The document structs are from
`models.rs`; the stored record is modelled as an association of canonical
field ids (`constants.rs` `FIELDS`, ids 0..22) to typed values.  The decoder
follows the `TryFrom<&KvReaderU16>` implementations in `models.rs` verbatim;
the encoder and the `FieldIterator` accessors are modelled from the spec
(§4.1): `milli_helpers.rs` / `obkv_ext.rs` are not under `src/`. -/

/-- `models.rs` lines 311-316 (`KeyValue`, a label triple). -/
structure KeyValue where
  key : String
  value : String
  locked : Bool
deriving DecidableEq, Repr

/-- `models.rs` lines 336-344 (`VisibilityClass`). -/
inductive VisibilityClass
  | Public
  | PublicMetadata
  | Private
deriving DecidableEq, Repr

/-- `models.rs` lines 346-353 (`Author`). -/
structure Author where
  id : Ulid
  first_name : String
  last_name : String
  email : String
  identifier : String
deriving DecidableEq, Repr

/-- `models.rs` lines 528-532 (`HashAlgorithm`). -/
inductive HashAlgorithm
  | sha256
  | md5
deriving DecidableEq, Repr

/-- `models.rs` lines 477-481 (`Hash`). -/
structure Hash where
  algorithm : HashAlgorithm
  value : String
deriving DecidableEq, Repr

/-- `models.rs` lines 491-497 (`SyncingStatus`). -/
inductive SyncingStatus
  | pending
  | running
  | finished
  | error
deriving DecidableEq, Repr

/-- `models.rs` lines 499-503 (`DataLocation`). -/
structure DataLocation where
  endpoint_id : String
  status : SyncingStatus
deriving DecidableEq, Repr

/-- `models.rs` lines 21-25 (`ResourceVariant`). -/
inductive ResourceVariant
  | project
  | folder
  | object
deriving DecidableEq, Repr

/-- `models.rs` lines 408-430 (`Resource`); timestamps are seconds. -/
structure Resource where
  id : Ulid
  name : String
  title : String
  description : String
  revision : Nat
  variant : ResourceVariant
  labels : List KeyValue
  identifiers : List String
  content_len : Nat
  count : Nat
  visibility : VisibilityClass
  created_at : Int
  last_modified : Int
  authors : List Author
  license_tag : String
  locked : Bool
  location : List DataLocation
  hashes : List Hash
deriving DecidableEq, Repr

/-- `models.rs` lines 388-399 (`User`). -/
structure User where
  id : Ulid
  first_name : String
  last_name : String
  email : String
  identifiers : String
  global_admin : Bool
deriving DecidableEq, Repr

/-- `models.rs` lines 372-377 (`Token`); `expires_at` as seconds. -/
structure Token where
  id : Ulid
  name : String
  expires_at : Int
deriving DecidableEq, Repr

/-- `models.rs` lines 401-406 (`ServiceAccount`). -/
structure ServiceAccount where
  id : Ulid
  name : String
deriving DecidableEq, Repr

/-- `models.rs` lines 356-362 (`Realm`). -/
structure Realm where
  id : Ulid
  tag : String
  name : String
  description : String
deriving DecidableEq, Repr

/-- A typed field value inside a stored record. -/
inductive FieldValue
  | vId (n : Ulid)
  | vU8 (n : Nat)
  | vStr (s : String)
  | vU64 (n : Nat)
  | vI64 (n : Int)
  | vBool (b : Bool)
  | vLabels (l : List KeyValue)
  | vStrList (l : List String)
  | vVis (v : VisibilityClass)
  | vAuthors (l : List Author)
  | vHashes (l : List Hash)
  | vLocations (l : List DataLocation)
deriving DecidableEq, Repr

/-- A stored document record: canonical field id to value, fields in
ascending id order, unset fields absent. -/
abbrev Doc := List (Nat × FieldValue)

/-- Field lookup inside a record. -/
def docGet (d : Doc) (i : Nat) : Option FieldValue :=
  (d.find? (fun p => p.1 == i)).map (·.2)

/-- `obkv_ext.rs` `ParseError` (codec failure). -/
inductive ParseError
  | parseError
deriving DecidableEq, Repr

/-- Modelled from the spec: `get_required_field(i)` fails with `ParseError`
if absent or type-mismatched (§4.1). -/
def getRequiredId (d : Doc) (i : Nat) : Except ParseError Ulid :=
  match docGet d i with
  | some (.vId n) => .ok n
  | _ => .error .parseError

def getRequiredU8 (d : Doc) (i : Nat) : Except ParseError Nat :=
  match docGet d i with
  | some (.vU8 n) => .ok n
  | _ => .error .parseError

def getRequiredStr (d : Doc) (i : Nat) : Except ParseError String :=
  match docGet d i with
  | some (.vStr s) => .ok s
  | _ => .error .parseError

/-- Modelled from the spec: `get_field(i)` returns optionally (§4.1); an
absent field decodes to the target type's default, a present field of the
wrong type is a `ParseError`. -/
def getFieldStr (d : Doc) (i : Nat) : Except ParseError String :=
  match docGet d i with
  | some (.vStr s) => .ok s
  | none => .ok ""
  | _ => .error .parseError

def getFieldU64 (d : Doc) (i : Nat) : Except ParseError Nat :=
  match docGet d i with
  | some (.vU64 n) => .ok n
  | none => .ok 0
  | _ => .error .parseError

def getFieldI64 (d : Doc) (i : Nat) : Except ParseError Int :=
  match docGet d i with
  | some (.vI64 n) => .ok n
  | none => .ok 0
  | _ => .error .parseError

def getFieldBool (d : Doc) (i : Nat) : Except ParseError Bool :=
  match docGet d i with
  | some (.vBool b) => .ok b
  | none => .ok false
  | _ => .error .parseError

def getFieldLabels (d : Doc) (i : Nat) : Except ParseError (List KeyValue) :=
  match docGet d i with
  | some (.vLabels l) => .ok l
  | none => .ok []
  | _ => .error .parseError

def getFieldStrList (d : Doc) (i : Nat) : Except ParseError (List String) :=
  match docGet d i with
  | some (.vStrList l) => .ok l
  | none => .ok []
  | _ => .error .parseError

def getFieldVis (d : Doc) (i : Nat) : Except ParseError VisibilityClass :=
  match docGet d i with
  | some (.vVis v) => .ok v
  | none => .ok .Private
  | _ => .error .parseError

def getFieldAuthors (d : Doc) (i : Nat) : Except ParseError (List Author) :=
  match docGet d i with
  | some (.vAuthors l) => .ok l
  | none => .ok []
  | _ => .error .parseError

def getFieldHashes (d : Doc) (i : Nat) : Except ParseError (List Hash) :=
  match docGet d i with
  | some (.vHashes l) => .ok l
  | none => .ok []
  | _ => .error .parseError

def getFieldLocations (d : Doc) (i : Nat) :
    Except ParseError (List DataLocation) :=
  match docGet d i with
  | some (.vLocations l) => .ok l
  | none => .ok []
  | _ => .error .parseError

/-- The `NodeVariant` discriminant stored for a resource
(`TryFrom<Resource> for serde_json::Map`, `models.rs` lines 108-117). -/
def ResourceVariant.toNodeVariantU8 : ResourceVariant → Nat
  | .project => NodeVariant.resourceProject.toU8
  | .folder => NodeVariant.resourceFolder.toU8
  | .object => NodeVariant.resourceObject.toU8

/-- Decoding the stored variant byte of a resource back to a
`ResourceVariant` (the typed read of field 1 in
`TryFrom<&KvReaderU16> for Resource`). -/
def resourceVariantOfU8 (n : Nat) : Except ParseError ResourceVariant :=
  if n = 0 then .ok .project
  else if n = 1 then .ok .folder
  else if n = 2 then .ok .object
  else .error .parseError

/-- Modelled from the spec: `encode(document)` writes fields in ascending
index order, keyed by the canonical field table (§4.1, §6); `revision` has no
canonical field id (the comment in `models.rs` says it should not be part of
the index) and is not stored. -/
def encodeResource (r : Resource) : Doc :=
  [(0, .vId r.id), (1, .vU8 r.variant.toNodeVariantU8), (2, .vStr r.name),
   (3, .vStr r.description), (4, .vLabels r.labels),
   (5, .vStrList r.identifiers), (6, .vU64 r.content_len),
   (7, .vU64 r.count), (8, .vVis r.visibility), (9, .vI64 r.created_at),
   (10, .vI64 r.last_modified), (11, .vAuthors r.authors),
   (12, .vBool r.locked), (13, .vStr r.license_tag), (14, .vHashes r.hashes),
   (15, .vLocations r.location), (22, .vStr r.title)]

/-- `models.rs` lines 120-146, `TryFrom<&KvReaderU16> for Resource`: field
reads in source order; `revision` is set to the constant `0`. -/
def decodeResource (d : Doc) : Except ParseError Resource := do
  let id ← getRequiredId d 0
  let variantByte ← getRequiredU8 d 1
  let variant ← resourceVariantOfU8 variantByte
  let name ← getRequiredStr d 2
  let description ← getFieldStr d 3
  let labels ← getFieldLabels d 4
  let identifiers ← getFieldStrList d 5
  let content_len ← getFieldU64 d 6
  let count ← getFieldU64 d 7
  let visibility ← getFieldVis d 8
  let created_at ← getFieldI64 d 9
  let last_modified ← getFieldI64 d 10
  let authors ← getFieldAuthors d 11
  let locked ← getFieldBool d 12
  let license_tag ← getFieldStr d 13
  let hashes ← getFieldHashes d 14
  let location ← getFieldLocations d 15
  let title ← getFieldStr d 22
  pure { id, name, title, description, revision := 0, variant, labels,
         identifiers, content_len, count, visibility, created_at,
         last_modified, authors, license_tag, locked, location, hashes }

/-- Modelled from the spec (§4.1): encoding of a `User` document
(fields 0, 1, 5, 18, 19, 20, 21 of the canonical table). -/
def encodeUser (u : User) : Doc :=
  [(0, .vId u.id), (1, .vU8 NodeVariant.user.toU8), (5, .vStr u.identifiers),
   (18, .vStr u.first_name), (19, .vStr u.last_name), (20, .vStr u.email),
   (21, .vBool u.global_admin)]

/-- `models.rs` lines 158-179, `TryFrom<&KvReaderU16> for User` (the variant
byte is double-checked against `NodeVariant::User`). -/
def decodeUser (d : Doc) : Except ParseError User := do
  let id ← getRequiredId d 0
  let variant ← getRequiredU8 d 1
  if variant = NodeVariant.user.toU8 then
    let identifiers ← getFieldStr d 5
    let first_name ← getRequiredStr d 18
    let last_name ← getRequiredStr d 19
    let email ← getRequiredStr d 20
    let global_admin ← getFieldBool d 21
    pure { id, first_name, last_name, email, identifiers, global_admin }
  else .error .parseError

/-- Modelled from the spec (§4.1): encoding of a `Token` document
(fields 0, 1, 2, 17). -/
def encodeToken (t : Token) : Doc :=
  [(0, .vId t.id), (1, .vU8 NodeVariant.token.toU8), (2, .vStr t.name),
   (17, .vI64 t.expires_at)]

/-- `models.rs` lines 191-209, `TryFrom<&KvReaderU16> for Token`. -/
def decodeToken (d : Doc) : Except ParseError Token := do
  let id ← getRequiredId d 0
  let variant ← getRequiredU8 d 1
  if variant = NodeVariant.token.toU8 then
    let name ← getFieldStr d 2
    let expires_at ← getFieldI64 d 17
    pure { id, name, expires_at }
  else .error .parseError

/-- Modelled from the spec (§4.1): encoding of a `ServiceAccount` document
(fields 0, 1, 2). -/
def encodeServiceAccount (sa : ServiceAccount) : Doc :=
  [(0, .vId sa.id), (1, .vU8 NodeVariant.serviceAccount.toU8),
   (2, .vStr sa.name)]

/-- `models.rs` lines 221-238, `TryFrom<&KvReaderU16> for ServiceAccount`. -/
def decodeServiceAccount (d : Doc) : Except ParseError ServiceAccount := do
  let id ← getRequiredId d 0
  let variant ← getRequiredU8 d 1
  if variant = NodeVariant.serviceAccount.toU8 then
    let name ← getFieldStr d 2
    pure { id, name }
  else .error .parseError

/-- Modelled from the spec (§4.1): encoding of a `Group` document
(fields 0, 1, 2, 3). -/
def encodeGroup (g : Group) : Doc :=
  [(0, .vId g.id), (1, .vU8 NodeVariant.group.toU8), (2, .vStr g.name),
   (3, .vStr g.description)]

/-- `models.rs` lines 250-268, `TryFrom<&KvReaderU16> for Group`. -/
def decodeGroup (d : Doc) : Except ParseError Group := do
  let id ← getRequiredId d 0
  let variant ← getRequiredU8 d 1
  if variant = NodeVariant.group.toU8 then
    let name ← getRequiredStr d 2
    let description ← getFieldStr d 3
    pure { id, name, description }
  else .error .parseError

/-- Modelled from the spec (§4.1): encoding of a `Realm` document
(fields 0, 1, 2, 3, 22). -/
def encodeRealm (r : Realm) : Doc :=
  [(0, .vId r.id), (1, .vU8 NodeVariant.realm.toU8), (2, .vStr r.name),
   (3, .vStr r.description), (22, .vStr r.tag)]

/-- `models.rs` lines 280-298, `TryFrom<&KvReaderU16> for Realm`. -/
def decodeRealm (d : Doc) : Except ParseError Realm := do
  let id ← getRequiredId d 0
  let variant ← getRequiredU8 d 1
  if variant = NodeVariant.realm.toU8 then
    let name ← getRequiredStr d 2
    let description ← getFieldStr d 3
    let tag ← getFieldStr d 22
    pure { id, tag, name, description }
  else .error .parseError

/-! Theorems. -/

/-- Helper: `findIdx?` over an appended singleton that satisfies the
predicate, when the prefix has no match, yields the prefix length (shifted by
the accumulator). -/
theorem findIdx_append_singleton {α : Type} (p : α → Bool) (a : α)
    (ha : p a = true) :
    ∀ (l : List α) (i : Nat), l.findIdx? p i = none →
      (l ++ [a]).findIdx? p i = some (i + l.length) := by
  intro l
  induction l with
  | nil =>
    intro i _
    simp [List.findIdx?_cons, ha]
  | cons x xs ih =>
    intro i h
    rw [List.findIdx?_cons] at h
    by_cases hx : p x = true
    · rw [if_pos hx] at h; cases h
    · rw [if_neg hx] at h
      have := ih (i + 1) h
      simp only [List.cons_append, List.findIdx?_cons, if_neg hx, this,
        List.length_cons]
      congr 1
      omega

/-- Helper: a fresh external id appended to the document store is assigned
the next internal idx. -/
theorem getIdx_append_fresh (db : DbState) (id : Ulid) (v : NodeVariant)
    (h : getIdxFromUlid db id = none) :
    ({ db with docs := db.docs ++ [(id, v)] } : DbState).docs.findIdx?
      (fun p => p.1 == id) = some db.docs.length := by
  have h' : db.docs.findIdx? (fun p => p.1 == id) = none := h
  have := findIdx_append_singleton (fun (p : Ulid × NodeVariant) => p.1 == id)
    (id, v) (by simp) db.docs 0 h'
  simpa using this

/-- C8: every permission value round-trips through its `u32` representation,
the representations are exactly the permission edge-type ids 2..6, and
`Permission::try_from` fails with `ConversionError` on every other `u32`. -/
theorem permission_u32_roundtrip :
    (∀ p : Permission, Permission.tryFrom p.toU32 = .ok p) ∧
    (Permission.none.toU32 = PERMISSION_NONE ∧
      Permission.read.toU32 = PERMISSION_READ ∧
      Permission.append.toU32 = PERMISSION_APPEND ∧
      Permission.write.toU32 = PERMISSION_WRITE ∧
      Permission.admin.toU32 = PERMISSION_ADMIN) ∧
    (∀ n : Nat, n < 2 ^ 32 → n < 2 ∨ 6 < n →
      Permission.tryFrom n = .error .conversionError) := by
  refine ⟨?_, ⟨rfl, rfl, rfl, rfl, rfl⟩, ?_⟩
  · intro p; cases p <;> rfl
  · intro n _ h
    unfold Permission.tryFrom PERMISSION_NONE PERMISSION_READ
      PERMISSION_APPEND PERMISSION_WRITE PERMISSION_ADMIN
    split_ifs <;> first | rfl | omega

/-- Witness for C8: `7` is a `u32` outside `2..=6` and is rejected. -/
theorem permission_u32_roundtrip_witness :
    Permission.tryFrom 7 = .error .conversionError :=
  permission_u32_roundtrip.2.2 7 (by norm_num) (by norm_num)

/-- C7: a JWKS refresh strictly within five minutes of `last_updated` fails
with the rate-limit error and returns the issuer unchanged (cached keys and
`last_updated` intact); outside the window, on an OIDC issuer with an
endpoint and a successful fetch, the key list is replaced and `last_updated`
advanced. -/
theorem jwks_refresh_rate_limited (iss : Issuer) (now : Int)
    (fetched : Option (List (String × Nat) × Int)) :
    (now < iss.lastUpdated + fiveMinutes →
      refreshJwks iss now fetched = (iss, .error .refreshTooSoon)) ∧
    (∀ ep keys t, iss.lastUpdated + fiveMinutes ≤ now →
      iss.issuerType = .oidc → iss.pubkeyEndpoint = some ep →
      fetched = some (keys, t) →
      refreshJwks iss now fetched =
        ({ iss with decodingKeys := keys, lastUpdated := t }, .ok ())) := by
  constructor
  · intro h
    unfold refreshJwks
    rw [if_pos (by omega)]
  · intro ep keys t h1 h2 h3 h4
    unfold refreshJwks
    rw [if_neg (by omega), if_neg (by simp [h2]), h3, h4]

/-- Witness for C7: at exactly the five-minute boundary a refresh of an OIDC
issuer succeeds and installs the fetched keys. -/
theorem jwks_refresh_rate_limited_witness :
    refreshJwks ⟨"iss", some "ep", [("k", 1)], 0, [], .oidc⟩ 300
        (some ([("k2", 2)], 300)) =
      (⟨"iss", some "ep", [("k2", 2)], 300, [], .oidc⟩, .ok ()) :=
  (jwks_refresh_rate_limited ⟨"iss", some "ep", [("k", 1)], 0, [], .oidc⟩ 300
    (some ([("k2", 2)], 300))).2 "ep" [("k2", 2)] 300
    (by norm_num [fiveMinutes]) rfl rfl rfl

/-- C10: every group operation rejects a requester that carries an
impersonator with `Unauthorized`, before any authorization check or state
change — the returned store is the input store. -/
theorem impersonation_rejected_before_any_effect (s : Store)
    (r : RequesterCtx) (imp : Ulid) (h : r.impersonator = some imp)
    (txId userId groupId : Ulid) (name description : String)
    (permission : Permission) (eventId : Nat) (commitOk : Bool) :
    createGroupRun s (some r) txId name description eventId commitOk =
        (s, .error .unauthorized) ∧
    getGroupRun s (some r) groupId = (s, .error .unauthorized) ∧
    addUserRun s (some r) userId groupId permission eventId commitOk =
        (s, .error .unauthorized) ∧
    getUsersFromGroupRun s (some r) groupId = (s, .error .unauthorized) ∧
    userAccessGroupRun s (some r) groupId eventId commitOk =
        (s, .error .unauthorized) := by
  unfold createGroupRun getGroupRun addUserRun getUsersFromGroupRun
    userAccessGroupRun
  simp [h, Option.bind]

/-- Witness for C10: a concrete impersonating requester is rejected by the
create-group operation on a concrete store. -/
theorem impersonation_rejected_witness :
    createGroupRun ⟨⟨[(1, .user)], [], [], []⟩, ⟨[.user], []⟩⟩
        (some ⟨some 1, some 4⟩) 2 "g" "" 9 true =
      (⟨⟨[(1, .user)], [], [], []⟩, ⟨[.user], []⟩⟩, .error .unauthorized) :=
  (impersonation_rejected_before_any_effect
    ⟨⟨[(1, .user)], [], [], []⟩, ⟨[.user], []⟩⟩ ⟨some 1, some 4⟩ 4 rfl
    2 0 0 "g" "" .read 9 true).1

/-- C1 counterexample: a write transaction consisting of one
`create_relation` whose final commit fails leaves the committed database
untouched, but the in-memory graph is NOT equal to the graph before the
write — it already holds the new edge, because `Store::create_relation`
mutates the shared graph immediately. -/
theorem failed_commit_mutates_graph_counterexample :
    attemptWrite ⟨⟨[(1, .user), (2, .group)], [], [], []⟩,
        ⟨[.user, .group], []⟩⟩
      (fun db g =>
        let p := createRelation db g 0 1 PERMISSION_ADMIN
        (p.2, .ok (p.1, ()))) false =
      (⟨⟨[(1, .user), (2, .group)], [], [], []⟩,
        ⟨[.user, .group], [(0, 1, 6)]⟩⟩, .error .databaseError) ∧
    (⟨[.user, .group], [(0, 1, 6)]⟩ : Graph) ≠ ⟨[.user, .group], []⟩ := by
  exact ⟨rfl, by decide⟩

/-- C1 amended: a write that fails at ANY step aborts with no effect on the
committed key-value state — for every body and every failure (a body error
such as a `create_node` failure, or a failing final commit), the committed
database after the attempt equals the database before it.  The in-memory
graph, however, retains the mutations the already-executed steps applied
eagerly: a failing commit after a `create_relation` leaves the new edge in
the graph, and a `create_node` whose index assertion fails panics mid-body
and leaves the new vertex in the graph. -/
theorem failed_write_aborts_kv_but_graph_keeps_mutations {α : Type}
    (s : Store)
    (body : DbState → Graph → Graph × Except ArunaError (DbState × α))
    (commitOk : Bool) (err : ArunaError) (source target edgeType : Nat)
    (eventId : Nat) (id : Ulid) (v : NodeVariant) :
    ((attemptWrite s body commitOk).2 = .error err →
      (attemptWrite s body commitOk).1.db = s.db) ∧
    (attemptWrite s (fun db g =>
        let p := createRelation db g source target edgeType
        (p.2, .ok (p.1, ()))) false =
      ({ db := s.db, graph := s.graph.addEdge source target edgeType },
        .error .databaseError)) ∧
    (∀ idx, getIdxFromUlid (indexDocument s.db id v) id = some idx →
      s.graph.nodes.length ≠ idx →
      attemptWrite s (fun db g => createNode db g eventId id v) commitOk =
        ({ db := s.db,
           graph := { s.graph with nodes := s.graph.nodes ++ [v] } },
          .error .panicked)) := by
  refine ⟨?_, rfl, ?_⟩
  · intro h
    rcases hb : body s.db s.graph with ⟨g', r⟩
    cases r with
    | error e => simp [attemptWrite, hb]
    | ok p =>
      rcases p with ⟨db', a⟩
      cases commitOk with
      | true => simp [attemptWrite, hb] at h
      | false => simp [attemptWrite, hb]
  · intro idx hidx hne
    simp only [attemptWrite, createNode, indexAndAddNode, hidx,
      Graph.addNode, if_neg hne]

/-- Witness for C1's amended statement: a `create_node` on a store whose
graph already has one vertex more than the document store panics on the
index mismatch; the committed database is unchanged while the graph keeps
the eagerly added vertex. -/
theorem failed_write_aborts_kv_witness :
    attemptWrite ⟨⟨[(1, .user)], [], [], []⟩, ⟨[.user, .group], []⟩⟩
        (fun db g => createNode db g 7 5 .token) true =
      (⟨⟨[(1, .user)], [], [], []⟩, ⟨[.user, .group, .token], []⟩⟩,
        .error .panicked) :=
  (failed_write_aborts_kv_but_graph_keeps_mutations (α := Unit)
    ⟨⟨[(1, .user)], [], [], []⟩, ⟨[.user, .group], []⟩⟩
    (fun _ g => (g, .error .unauthorized)) true .databaseError 0 0 0
    7 5 .token).2.2 1 rfl (by decide)

/-- C2: whenever `Store::create_node` succeeds, the returned index is both
the internal idx the document store assigned to the node's ulid and the
vertex index `add_node` returned (the vertex count before the call); if the
two indices disagree, `create_node` panics (the `assert_eq!`) instead of
reaching the commit. -/
theorem create_node_idx_sync (db : DbState) (g : Graph) (eventId : Nat)
    (id : Ulid) (v : NodeVariant) :
    (∀ db' idx, (createNode db g eventId id v).2 = .ok (db', idx) →
      getIdxFromUlid db' id = some idx ∧ idx = g.nodes.length) ∧
    (∀ idx, getIdxFromUlid (indexDocument db id v) id = some idx →
      g.nodes.length ≠ idx →
      (createNode db g eventId id v).2 = .error .panicked) := by
  constructor
  · intro db' idx h
    cases hidx : getIdxFromUlid (indexDocument db id v) id with
    | none => simp [createNode, indexAndAddNode, hidx] at h
    | some idx0 =>
      by_cases hl : g.nodes.length = idx0
      · simp only [createNode, indexAndAddNode, hidx, Graph.addNode,
          if_pos hl, Except.ok.injEq, Prod.mk.injEq] at h
        obtain ⟨hdb, hi⟩ := h
        subst hi
        rw [← hdb]
        exact ⟨hidx, hl.symm⟩
      · simp [createNode, indexAndAddNode, hidx, Graph.addNode,
          if_neg hl] at h
  · intro idx hidx hne
    simp only [createNode, indexAndAddNode, hidx, Graph.addNode, if_neg hne]

/-- Witness for C2: creating a node with a fresh ulid in the empty store
succeeds with index 0, which is both the document idx of the ulid and the
prior vertex count. -/
theorem create_node_idx_sync_witness :
    getIdxFromUlid ⟨[(5, .group)], [], [(0, 7)], []⟩ 5 = some 0 ∧
    0 = (⟨[], []⟩ : Graph).nodes.length :=
  (create_node_idx_sync ⟨[], [], [], []⟩ ⟨[], []⟩ 7 5 .group).1
    ⟨[(5, .group)], [], [(0, 7)], []⟩ 0 rfl

/-- C3 (code bug): two `create_relation` calls sharing the source index 0 in
one committed transaction leave TWO edges in the graph but only ONE
`(source, raw_relation)` tuple in the `relations` sub-database — the second
`put` overwrote the first because the database is opened without `DUP_SORT`;
the first tuple is no longer retrievable. -/
theorem relations_db_overwrites_shared_source :
    attemptWrite ⟨⟨[(1, .user), (2, .group), (3, .realm)], [], [], []⟩,
        ⟨[.user, .group, .realm], []⟩⟩
      (fun db g =>
        let p1 := createRelation db g 0 1 PERMISSION_ADMIN
        let p2 := createRelation p1.1 p1.2 0 2 PERMISSION_READ
        (p2.2, .ok (p2.1, ()))) true =
      (⟨⟨[(1, .user), (2, .group), (3, .realm)],
          [(0, ⟨0, 2, 3⟩)], [], []⟩,
        ⟨[.user, .group, .realm], [(0, 1, 6), (0, 2, 3)]⟩⟩, .ok ()) ∧
    kvGet [(0, (⟨0, 2, 3⟩ : RawRelation))] 0 ≠ some ⟨0, 1, 6⟩ := by
  exact ⟨rfl, by decide⟩

/-- C4 counterexample: two committed create-group transactions whose
caller-supplied event ids are ulids from the same millisecond, the second
with a smaller random part, persist an event id that is NOT greater than the
previously persisted one — the store does no monotonicity check. -/
theorem event_ids_not_monotonic_counterexample :
    ((createGroupRun
        (createGroupRun ⟨⟨[(1, .user)], [], [], []⟩, ⟨[.user], []⟩⟩
          (some ⟨some 1, none⟩) 2 "g1" "" (ulidNew 1 5) true).1
        (some ⟨some 1, none⟩) 3 "g2" "" (ulidNew 1 3) true).1).db.events =
      [(0, ulidNew 1 5), (1, ulidNew 1 5), (0, ulidNew 1 3),
        (2, ulidNew 1 3)] ∧
    ulidNew 1 3 < ulidNew 1 5 := by
  exact ⟨rfl, by norm_num [ulidNew]⟩

/-- C4 amended: a commit appends exactly the caller-supplied event id for
every affected node, performing no comparison with previously persisted ids;
since the ids are fresh ulids, an id minted in a strictly later millisecond
is strictly greater, but ids from the same millisecond carry no order
guarantee. -/
theorem event_append_uses_caller_id (db : DbState) (eventId : Nat)
    (affected : List Nat) (t1 r1 t2 r2 : Nat) :
    (registerEvents db eventId affected).events =
      db.events ++ affected.map (fun i => (i, eventId)) ∧
    (t1 < 2 ^ 48 → t2 < 2 ^ 48 → t1 < t2 → ulidNew t1 r1 < ulidNew t2 r2) := by
  constructor
  · rfl
  · intro h1 h2 h3
    unfold ulidNew
    rw [Nat.mod_eq_of_lt h1, Nat.mod_eq_of_lt h2]
    have hr1 : r1 % 2 ^ 80 < 2 ^ 80 := Nat.mod_lt _ (by norm_num)
    have hr2 : r2 % 2 ^ 80 ≥ 0 := Nat.zero_le _
    nlinarith [hr1, hr2, h3]

/-- Witness for C4's amended statement: ids from milliseconds 1 and 2 are
ordered, and the append at a concrete store stores the supplied id. -/
theorem event_append_uses_caller_id_witness :
    (registerEvents ⟨[], [], [], []⟩ 9 [0]).events =
      ([] : List (Nat × Nat)) ++ [0].map (fun i => (i, 9)) ∧
    ulidNew 1 0 < ulidNew 2 0 := by
  have h := event_append_uses_caller_id ⟨[], [], [], []⟩ 9 [0] 1 0 2 0
  exact ⟨h.1, h.2 (by norm_num) (by norm_num) (by norm_num)⟩

/-- C5 counterexample: a token whose only outgoing edge is a `HasPart` edge
(NOT an ownership edge) to a service account that is a member of TWO groups
resolves successfully to a `ServiceAccount` requester carrying one of the
groups — the claim demands `Unauthorized` both for a missing ownership edge
and for a service account that is not in exactly one group, but the code
filters neither the edge type nor the group count. -/
theorem token_resolution_counterexample :
    getRequesterFromTokenId
        ⟨[(10, .token), (11, .serviceAccount), (12, .group), (13, .group)],
          [], [], []⟩
        ⟨[.token, .serviceAccount, .group, .group],
          [(0, 1, 0), (1, 2, 6), (1, 3, 6)]⟩ 10 =
      .ok (.serviceAccount 11 10 13) ∧
    (Graph.edges ⟨[.token, .serviceAccount, .group, .group],
        [(0, 1, 0), (1, 2, 6), (1, 3, 6)]⟩).filter
      (fun e => e.1 == 0 && e.2.2 == OWNED_BY_USER) = [] ∧
    ((Graph.neighbors ⟨[.token, .serviceAccount, .group, .group],
        [(0, 1, 0), (1, 2, 6), (1, 3, 6)]⟩ 1).filter
      (fun m => Graph.nodeWeight ⟨[.token, .serviceAccount, .group, .group],
        [(0, 1, 0), (1, 2, 6), (1, 3, 6)]⟩ m ==
          some .group)).length = 2 := by
  exact ⟨rfl, rfl, rfl⟩

/-- C5 amended: `get_requester_from_token_id` fails with `Unauthorized` on an
unknown id, a non-`Token` node or a token with no outgoing neighbors; it
scans the token's outgoing neighbors regardless of edge type, in graph
order: a first `User` neighbor with a resolvable ulid yields
`Requester::User{user_id, token}`; a first `ServiceAccount` neighbor yields
`Requester::ServiceAccount{service_account_id, token_id, group_id}` where
the group is the account's FIRST outgoing `Group` neighbor (`Unauthorized`
if it has none); a first neighbor of any other variant yields
`Unauthorized`. -/
theorem token_resolution_amended (db : DbState) (g : Graph) (t : Ulid) :
    (getIdxFromUlid db t = none →
      getRequesterFromTokenId db g t = .error .unauthorized) ∧
    (∀ i, getIdxFromUlid db t = some i → g.nodeWeight i ≠ some .token →
      getRequesterFromTokenId db g t = .error .unauthorized) ∧
    (∀ i, getIdxFromUlid db t = some i → g.nodeWeight i = some .token →
      g.neighbors i = [] →
      getRequesterFromTokenId db g t = .error .unauthorized) ∧
    (∀ i n rest uid, getIdxFromUlid db t = some i →
      g.nodeWeight i = some .token → g.neighbors i = n :: rest →
      g.nodeWeight n = some .user → getUlidFromIdx db n = some uid →
      getRequesterFromTokenId db g t = .ok (.user uid (.aruna t))) ∧
    (∀ i n rest said grp gid, getIdxFromUlid db t = some i →
      g.nodeWeight i = some .token → g.neighbors i = n :: rest →
      g.nodeWeight n = some .serviceAccount →
      getUlidFromIdx db n = some said →
      (g.neighbors n).find? (fun m => g.nodeWeight m == some .group) =
        some grp →
      getUlidFromIdx db grp = some gid →
      getRequesterFromTokenId db g t =
        .ok (.serviceAccount said t gid)) ∧
    (∀ i n rest said, getIdxFromUlid db t = some i →
      g.nodeWeight i = some .token → g.neighbors i = n :: rest →
      g.nodeWeight n = some .serviceAccount →
      getUlidFromIdx db n = some said →
      (g.neighbors n).find? (fun m => g.nodeWeight m == some .group) =
        none →
      getRequesterFromTokenId db g t = .error .unauthorized) ∧
    (∀ i n rest w, getIdxFromUlid db t = some i →
      g.nodeWeight i = some .token → g.neighbors i = n :: rest →
      g.nodeWeight n = some w → w ≠ .user → w ≠ .serviceAccount →
      getRequesterFromTokenId db g t = .error .unauthorized) := by
  refine ⟨?_, ?_, ?_, ?_, ?_, ?_, ?_⟩
  · intro h
    simp [getRequesterFromTokenId, h]
  · intro i hi hv
    simp [getRequesterFromTokenId, hi, checkNodeVariant, hv]
  · intro i hi hv hn
    simp [getRequesterFromTokenId, hi, checkNodeVariant, hv, hn,
      resolveTokenNeighbors]
  · intro i n rest uid hi hv hn hw hu
    simp [getRequesterFromTokenId, hi, checkNodeVariant, hv, hn,
      resolveTokenNeighbors, hw, hu]
  · intro i n rest said grp gid hi hv hn hw hsa hgrp hgid
    simp [getRequesterFromTokenId, hi, checkNodeVariant, hv, hn,
      resolveTokenNeighbors, hw, hsa, hgrp, hgid]
  · intro i n rest said hi hv hn hw hsa hgrp
    simp [getRequesterFromTokenId, hi, checkNodeVariant, hv, hn,
      resolveTokenNeighbors, hw, hsa, hgrp]
  · intro i n rest w hi hv hn hw hwu hwsa
    cases w <;> simp_all [getRequesterFromTokenId, checkNodeVariant,
      resolveTokenNeighbors]

/-- Witness for C5's amended statement: a token owned by a user resolves to
that user. -/
theorem token_resolution_amended_witness :
    getRequesterFromTokenId ⟨[(20, .token), (21, .user)], [], [], []⟩
        ⟨[.token, .user], [(0, 1, 8)]⟩ 20 =
      .ok (.user 21 (.aruna 20)) :=
  (token_resolution_amended ⟨[(20, .token), (21, .user)], [], [], []⟩
    ⟨[.token, .user], [(0, 1, 8)]⟩ 20).2.2.2.1 0 1 [] 21 rfl rfl rfl rfl rfl

/-- C9 counterexample: a `Resource` with `revision = 1` does not round-trip —
`TryFrom<&KvReaderU16> for Resource` hardcodes `revision: 0`, so the decoded
document differs from the original. -/
theorem resource_revision_not_roundtripped :
    decodeResource (encodeResource
        ⟨1, "n", "t", "d", 1, .project, [], [], 0, 0, .Private, 0, 0, [],
          "l", false, [], []⟩) =
      .ok ⟨1, "n", "t", "d", 0, .project, [], [], 0, 0, .Private, 0, 0, [],
          "l", false, [], []⟩ ∧
    decodeResource (encodeResource
        ⟨1, "n", "t", "d", 1, .project, [], [], 0, 0, .Private, 0, 0, [],
          "l", false, [], []⟩) ≠
      .ok ⟨1, "n", "t", "d", 1, .project, [], [], 0, 0, .Private, 0, 0, [],
          "l", false, [], []⟩ := by
  refine ⟨rfl, fun h => ?_⟩
  have h' : (Except.ok
      (⟨1, "n", "t", "d", 0, .project, [], [], 0, 0, .Private, 0, 0, [],
        "l", false, [], []⟩ : Resource) : Except ParseError Resource) =
      .ok ⟨1, "n", "t", "d", 1, .project, [], [], 0, 0, .Private, 0, 0, [],
        "l", false, [], []⟩ := by
    rw [← h]
    rfl
  injection h' with h''
  exact absurd h'' (by decide)

/-- C9 amended: the field codec round-trips on every `User`, `Token`,
`ServiceAccount`, `Group` and `Realm` document, and on every `Resource`
whose `revision` is `0` (the `revision` field is not part of the stored
record and always decodes to `0`). -/
theorem codec_roundtrip_amended :
    (∀ u : User, decodeUser (encodeUser u) = .ok u) ∧
    (∀ t : Token, decodeToken (encodeToken t) = .ok t) ∧
    (∀ sa : ServiceAccount,
      decodeServiceAccount (encodeServiceAccount sa) = .ok sa) ∧
    (∀ g : Group, decodeGroup (encodeGroup g) = .ok g) ∧
    (∀ r : Realm, decodeRealm (encodeRealm r) = .ok r) ∧
    (∀ r : Resource, r.revision = 0 →
      decodeResource (encodeResource r) = .ok r) := by
  refine ⟨fun u => rfl, fun t => rfl, fun sa => rfl, fun g => rfl,
    fun r => rfl, fun r h => ?_⟩
  obtain ⟨id, name, title, description, revision, variant, labels,
    identifiers, content_len, count, visibility, created_at, last_modified,
    authors, license_tag, locked, location, hashes⟩ := r
  change revision = 0 at h
  subst h
  cases variant <;> rfl

/-- Witness for C9's amended statement: a concrete resource with
`revision = 0` round-trips. -/
theorem codec_roundtrip_amended_witness :
    decodeResource (encodeResource
        ⟨1, "n", "t", "d", 0, .object, [⟨"k", "v", true⟩], ["i"], 2, 3,
          .Public, 4, 5, [⟨6, "f", "l", "e", "x"⟩], "lic", true,
          [⟨"ep", .pending⟩], [⟨.sha256, "h"⟩]⟩) =
      .ok ⟨1, "n", "t", "d", 0, .object, [⟨"k", "v", true⟩], ["i"], 2, 3,
          .Public, 4, 5, [⟨6, "f", "l", "e", "x"⟩], "lic", true,
          [⟨"ep", .pending⟩], [⟨.sha256, "h"⟩]⟩ :=
  codec_roundtrip_amended.2.2.2.2.2
    ⟨1, "n", "t", "d", 0, .object, [⟨"k", "v", true⟩], ["i"], 2, 3,
      .Public, 4, 5, [⟨6, "f", "l", "e", "x"⟩], "lic", true,
      [⟨"ep", .pending⟩], [⟨.sha256, "h"⟩]⟩ rfl

/-- Helper: a list none of whose elements satisfies the predicate has
`any = false`. -/
theorem any_eq_false_of_forall {α : Type} (p : α → Bool) (l : List α)
    (h : ∀ x ∈ l, p x = false) : l.any p = false := by
  cases hA : l.any p with
  | false => rfl
  | true =>
    obtain ⟨x, hx, hpx⟩ := List.any_eq_true.mp hA
    rw [h x hx] at hpx
    cases hpx

/-- Helper: `findIdx?` only returns indices below the accumulator plus the
list length. -/
theorem findIdx_some_lt {α : Type} (p : α → Bool) :
    ∀ (l : List α) (i j : Nat), l.findIdx? p i = some j → j < i + l.length := by
  intro l
  induction l with
  | nil => intro i j h; cases h
  | cons x xs ih =>
    intro i j h
    rw [List.findIdx?_cons] at h
    by_cases hx : p x = true
    · rw [if_pos hx] at h
      cases h
      simp
    · rw [if_neg hx] at h
      have := ih (i + 1) j h
      simp only [List.length_cons]
      omega

/-- C6: executing a create-group transaction for a registered user `U` and a
fresh group id `G` against a store whose graph, events and read-permission
databases are aligned with the document store commits exactly the expected
state: the response is the created group, `G`'s document gets the next
internal idx, the graph gains exactly one `U --PermissionAdmin--> G` edge,
`G`'s read universe is the singleton of its own idx, and the one supplied
event id is associated with the affected nodes. -/
theorem create_group_commits_expected_state (s : Store) (uid gid : Ulid)
    (nm ds : String) (e : Nat) (uIdx : Nat)
    (hN : s.graph.nodes.length = s.db.docs.length)
    (hE : ∀ ed ∈ s.graph.edges, ed.2.1 < s.db.docs.length)
    (hEv : ∀ p ∈ s.db.events, p.1 < s.db.docs.length)
    (hP : ∀ p ∈ s.db.readPerms, p.1 < s.db.docs.length)
    (hu : getIdxFromUlid s.db uid = some uIdx)
    (hg : getIdxFromUlid s.db gid = none) :
    createGroupExecute s uid ⟨gid, nm, ds⟩ e true =
      (⟨⟨s.db.docs ++ [(gid, .group)],
          kvPut s.db.relations uIdx
            ⟨uIdx, s.db.docs.length, PERMISSION_ADMIN⟩,
          s.db.events ++ [(uIdx, e), (s.db.docs.length, e)],
          s.db.readPerms ++ [(s.db.docs.length, [s.db.docs.length])]⟩,
        ⟨s.graph.nodes ++ [.group],
          s.graph.edges ++ [(uIdx, s.db.docs.length, PERMISSION_ADMIN)]⟩⟩,
       .ok ⟨⟨gid, nm, ds⟩⟩) ∧
    getIdxFromUlid (createGroupExecute s uid ⟨gid, nm, ds⟩ e true).1.db gid =
      some s.db.docs.length ∧
    ((createGroupExecute s uid ⟨gid, nm, ds⟩ e true).1.graph.edges.filter
      (fun ed => ed == (uIdx, s.db.docs.length, PERMISSION_ADMIN))).length =
      1 ∧
    kvGet (createGroupExecute s uid ⟨gid, nm, ds⟩ e true).1.db.readPerms
      s.db.docs.length = some [s.db.docs.length] ∧
    (((createGroupExecute s uid ⟨gid, nm, ds⟩ e true).1.db.events.filter
      (fun p => p.1 == s.db.docs.length)).map (·.2)) = [e] := by
  have hall : ∀ x ∈ s.db.docs, (x.1 == gid) = false :=
    List.findIdx?_eq_none_iff.mp hg
  have hAny : s.db.docs.any (fun p => p.1 == gid) = false :=
    any_eq_false_of_forall _ _ hall
  have hFind : getIdxFromUlid
      { s.db with docs := s.db.docs ++ [(gid, .group)] } gid =
      some s.db.docs.length := getIdx_append_fresh s.db gid .group hg
  have hPfall : ∀ x ∈ s.db.readPerms, (x.1 == s.db.docs.length) = false := by
    intro x hx
    have := hP x hx
    simp only [beq_eq_false_iff_ne]
    omega
  have hPfind : s.db.readPerms.find?
      (fun p => p.1 == s.db.docs.length) = none :=
    List.find?_eq_none.mpr (fun x hx => by rw [hPfall x hx]; simp)
  have hPany : s.db.readPerms.any
      (fun p => p.1 == s.db.docs.length) = false :=
    any_eq_false_of_forall _ _ hPfall
  have hu' : s.db.docs.findIdx? (fun p => p.1 == uid) = some uIdx := hu
  have huIdx : uIdx < s.db.docs.length := by
    have := findIdx_some_lt (fun (p : Ulid × NodeVariant) => p.1 == uid)
      s.db.docs 0 uIdx hu'
    omega
  have step0 : indexAndAddNode s.db s.graph gid .group =
      (⟨s.graph.nodes ++ [.group], s.graph.edges⟩,
       .ok ({ s.db with docs := s.db.docs ++ [(gid, .group)] },
         s.db.docs.length)) := by
    simp only [indexAndAddNode, indexDocument, hAny, Bool.false_eq_true,
      if_false, hFind, Graph.addNode]
    rw [if_pos hN]
  have step1 : createGroupTxBody uid ⟨gid, nm, ds⟩ e s.db s.graph =
      (⟨s.graph.nodes ++ [.group],
        s.graph.edges ++ [(uIdx, s.db.docs.length, PERMISSION_ADMIN)]⟩,
       .ok (⟨s.db.docs ++ [(gid, .group)],
          kvPut s.db.relations uIdx
            ⟨uIdx, s.db.docs.length, PERMISSION_ADMIN⟩,
          s.db.events ++ [(uIdx, e), (s.db.docs.length, e)],
          s.db.readPerms ++ [(s.db.docs.length, [s.db.docs.length])]⟩,
         ⟨⟨gid, nm, ds⟩⟩)) := by
    simp only [createGroupTxBody, hu, step0, createRelation, Graph.addEdge,
      addReadPermissionUniverse, registerEvents, kvGet, hPfind, Option.map,
      Option.getD, kvPut, hPany, Bool.false_eq_true, if_false,
      List.nil_append, List.map]
  have hmain : createGroupExecute s uid ⟨gid, nm, ds⟩ e true =
      (⟨⟨s.db.docs ++ [(gid, .group)],
          kvPut s.db.relations uIdx
            ⟨uIdx, s.db.docs.length, PERMISSION_ADMIN⟩,
          s.db.events ++ [(uIdx, e), (s.db.docs.length, e)],
          s.db.readPerms ++ [(s.db.docs.length, [s.db.docs.length])]⟩,
        ⟨s.graph.nodes ++ [.group],
          s.graph.edges ++ [(uIdx, s.db.docs.length, PERMISSION_ADMIN)]⟩⟩,
       .ok ⟨⟨gid, nm, ds⟩⟩) := by
    simp only [createGroupExecute, attemptWrite, step1, if_true]
  refine ⟨hmain, ?_, ?_, ?_, ?_⟩
  · rw [hmain]
    exact hFind
  · rw [hmain]
    have hnil : s.graph.edges.filter
        (fun ed => ed == (uIdx, s.db.docs.length, PERMISSION_ADMIN)) = [] := by
      rw [List.filter_eq_nil_iff]
      intro a ha
      have hlt := hE a ha
      intro hEq
      rw [beq_iff_eq] at hEq
      subst hEq
      simp at hlt
    simp [List.filter_append, hnil]
  · rw [hmain]
    simp only [kvGet, List.find?_append, hPfind, Option.none_or]
    simp [List.find?]
  · rw [hmain]
    have hnil : s.db.events.filter
        (fun p => p.1 == s.db.docs.length) = [] := by
      rw [List.filter_eq_nil_iff]
      intro a ha
      have hlt := hEv a ha
      simp only [beq_iff_eq]
      omega
    have hune : (uIdx == s.db.docs.length) = false := by
      simp only [beq_eq_false_iff_ne]
      omega
    simp [List.filter_append, hnil, List.filter, hune]

/-- Witness for C6: a concrete registered user creating a concrete fresh
group commits the expected state and returns the created group. -/
theorem create_group_commits_expected_state_witness :
    createGroupExecute ⟨⟨[(1, .user)], [], [], []⟩, ⟨[.user], []⟩⟩ 1
        ⟨2, "g", ""⟩ 9 true =
      (⟨⟨[(1, .user), (2, .group)], [(0, ⟨0, 1, 6⟩)], [(0, 9), (1, 9)],
          [(1, [1])]⟩,
        ⟨[.user, .group], [(0, 1, 6)]⟩⟩, .ok ⟨⟨2, "g", ""⟩⟩) :=
  (create_group_commits_expected_state
    ⟨⟨[(1, .user)], [], [], []⟩, ⟨[.user], []⟩⟩ 1 2 "g" "" 9 0 rfl
    (by simp) (by simp) (by simp) rfl rfl).1

end Aruna
